import Mathlib

/-!
Verification development for the GET_API_Supabase_Tiximax repository.

The repository contains two families of implementations of the same
HTTP-to-database proxy:

* `src/supabase_api.py` — the "raw-SQL" variant: `build_where_clause`
  compiles URL query parameters into a parameterized SQL WHERE clause
  (text with `%s` placeholders plus a list of bound values), validating
  column names against a cached `information_schema` probe.

* `src/api/main.py`, `src/api/index.py`, `src/api/supabase.py` — the
  "builder" variants: `apply_filters` chains supabase query-builder calls,
  with the schema probed by selecting one row and reading its field names.

This file shallowly embeds the data model and the operations of both
variants as executable Lean definitions, translated function by function
from the Python source, and proves the behavioural properties stated
about them.
-/

namespace Tiximax

/-! ### Python string primitives

Executable models of the Python `str` operations the source uses:
`str.strip`, `str.lower`, `str.split(",")`, `key.split("__", 1)`,
`sep.join`, and `int(...)`.  Each is written by structural recursion on
character lists so that every definition reduces in the kernel. -/

/-- Characters removed by Python `str.strip()` (ASCII whitespace). -/
def isPySpace (c : Char) : Bool :=
  c = ' ' ∨ c = '\t' ∨ c = '\n' ∨ c = '\r' ∨ c = '\x0b' ∨ c = '\x0c'

/-- Model of Python `s.strip()`: drop ASCII whitespace from both ends. -/
def pyStrip (s : String) : String :=
  String.mk (((s.data.dropWhile isPySpace).reverse.dropWhile isPySpace).reverse)

/-- Model of Python `s.lower()` (the source only lowercases ASCII
operands such as `NULL`/`True`/`FALSE`, where `Char.toLower` agrees with
Python). -/
def pyLower (s : String) : String :=
  String.mk (s.data.map Char.toLower)

/-- Split a character list at every comma, keeping empty segments,
exactly as Python `s.split(",")` does.  `cur` is the (reversed) segment
accumulated so far. -/
def splitCommaAux : List Char → List Char → List (List Char)
  | [], cur => [cur.reverse]
  | ',' :: rest, cur => cur.reverse :: splitCommaAux rest []
  | c :: rest, cur => splitCommaAux rest (c :: cur)

/-- Model of Python `s.split(",")`. -/
def pySplitComma (s : String) : List String :=
  (splitCommaAux s.data []).map String.mk

/-- Split a character list at every non-overlapping occurrence of `__`
(leftmost-first), keeping empty segments, as Python `s.split("__")`. -/
def splitDunderAux : List Char → List Char → List (List Char)
  | '_' :: '_' :: rest, cur => cur.reverse :: splitDunderAux rest []
  | c :: rest, cur => splitDunderAux rest (c :: cur)
  | [], cur => [cur.reverse]

/-- Model of Python `sep.join(parts)`. -/
def pyJoin (sep : String) : List String → String
  | [] => ""
  | [x] => x
  | x :: xs => x ++ sep ++ pyJoin sep xs

/-- Value of a non-empty all-digit character list, `none` otherwise. -/
def digitsVal (l : List Char) : Option Nat :=
  if l = [] ∨ l.any (fun c => ¬ c.isDigit) then none
  else some (l.foldl (fun n c => n * 10 + (c.toNat - 48)) 0)

/-- Model of Python `int(s)` for decimal literals: optional surrounding
whitespace, optional sign, decimal digits; anything else raises
(`none`).  (Python's underscore digit grouping is not modelled; no claim
depends on it.) -/
def pyInt (s : String) : Option Int :=
  let t := ((s.data.dropWhile isPySpace).reverse.dropWhile isPySpace).reverse
  match t with
  | '-' :: rest => (digitsVal rest).map (fun n => -(n : Int))
  | '+' :: rest => (digitsVal rest).map (fun n => (n : Int))
  | l => (digitsVal l).map (fun n => (n : Int))

/-- First value bound to `k` in an association list (Python `dict`
lookup / `dict.get`). -/
def lookupL {α : Type} (l : List (String × α)) (k : String) : Option α :=
  (l.find? (fun e => e.1 = k)).map (fun e => e.2)

/-! ### Shared parameter-key decoding

Both variants partition query keys into the same reserved set and decode
`operator__column` keys the same way. -/

/-- The reserved (non-filter) parameter keys.  `src/supabase_api.py`
line 104 builds this as `skip`; `src/api/main.py` line 46 and
`src/api/index.py` line 57 use the identical tuple. -/
def skipKeys : List String := ["select", "order", "desc", "limit", "offset", "count"]

/-- Decode a parameter key: `op, col = key.split("__", 1)` when `"__" in
key`, else `("eq", key)` (`src/supabase_api.py` lines 109-112,
`src/api/main.py` lines 48-51). -/
def splitKey (key : String) : String × String :=
  match splitDunderAux key.data [] with
  | [] => ("eq", key)
  | [_] => ("eq", key)
  | p :: rest => (String.mk p, pyJoin "__" (rest.map String.mk))

/-! ### Raw-SQL variant: `build_where_clause` (src/supabase_api.py) -/

/-- The HTTP-400 errors `build_where_clause` can raise. -/
inductive BuildError where
  /-- Line 115: `HTTPException(400, f"Cột '{col}' không tồn tại trong bảng '{table}'")`. -/
  | unknownColumn (col : String) (table : String)
  /-- Line 157: `HTTPException(400, "Giá trị 'is' chỉ được là null/true/false")`. -/
  | invalidIs
deriving DecidableEq, Repr

/-- SQL text of a binary comparison condition, Python
`f'"{col}" {sym} %s'` with `sym` one of `=`, `!=`, `>`, `>=`, `<`, `<=`,
`LIKE`, `ILIKE` (lines 118-140). -/
def condBin (col sym : String) : String :=
  "\"" ++ col ++ "\" " ++ sym ++ " %s"

/-- SQL text of an IN condition with `n` placeholders, Python
`f'"{col}" IN ({", ".join(["%s"] * n)})'` (lines 145-146). -/
def condIn (col : String) (n : Nat) : String :=
  "\"" ++ col ++ "\" IN (" ++ pyJoin ", " (List.replicate n "%s") ++ ")"

/-- SQL text of an IS condition, Python `f'"{col}" IS NULL'` etc.
(lines 151-155). -/
def condIs (col word : String) : String :=
  "\"" ++ col ++ "\" IS " ++ word

/-- The operand sequence of an `in` filter, Python
`[x.strip() for x in str(val).split(",") if x.strip()]` (line 142). -/
def inItems (val : String) : List String :=
  ((pySplitComma val).map pyStrip).filter (fun x => x ≠ "")

/-- The `in` arm of the loop body (src/supabase_api.py lines 141-147):
split-strip-filter the operand; an empty item list drops the clause
(`continue`), otherwise one placeholder per item is appended. -/
def inClause (col val : String) (acc : List String × List String) :
    Except BuildError (List String × List String) :=
  if inItems val = [] then .ok acc
  else .ok (acc.1 ++ [condIn col (inItems val).length], acc.2 ++ inItems val)

/-- The `is` arm of the loop body (src/supabase_api.py lines 148-157):
the lowercased operand selects IS NULL / IS TRUE / IS FALSE, adding no
bound value; anything else raises the 400 error. -/
def isClause (col val : String) (acc : List String × List String) :
    Except BuildError (List String × List String) :=
  if pyLower val = "null" then .ok (acc.1 ++ [condIs col "NULL"], acc.2)
  else if pyLower val = "true" then .ok (acc.1 ++ [condIs col "TRUE"], acc.2)
  else if pyLower val = "false" then .ok (acc.1 ++ [condIs col "FALSE"], acc.2)
  else .error .invalidIs

/-- The operator dispatch of the loop body (src/supabase_api.py lines
117-157), reached after the column check passed: the if/elif chain on
`op`; an unrecognized operator falls through with no effect. -/
def buildClause (col op val : String) (acc : List String × List String) :
    Except BuildError (List String × List String) :=
  if op = "eq" then .ok (acc.1 ++ [condBin col "="], acc.2 ++ [val])
  else if op = "ne" then .ok (acc.1 ++ [condBin col "!="], acc.2 ++ [val])
  else if op = "gt" then .ok (acc.1 ++ [condBin col ">"], acc.2 ++ [val])
  else if op = "gte" then .ok (acc.1 ++ [condBin col ">="], acc.2 ++ [val])
  else if op = "lt" then .ok (acc.1 ++ [condBin col "<"], acc.2 ++ [val])
  else if op = "lte" then .ok (acc.1 ++ [condBin col "<="], acc.2 ++ [val])
  else if op = "like" then .ok (acc.1 ++ [condBin col "LIKE"], acc.2 ++ [val])
  else if op = "ilike" then .ok (acc.1 ++ [condBin col "ILIKE"], acc.2 ++ [val])
  else if op = "in" then inClause col val acc
  else if op = "is" then isClause col val acc
  else .ok acc

/-- One iteration of the `for key, val in params.items()` loop of
`build_where_clause` (src/supabase_api.py lines 105-157): skip reserved
keys and empty values (line 106), decode `op`/`col` (lines 109-112),
reject columns outside `allowed` (lines 114-115), then dispatch on the
operator.  The skipped `val is None` test is not modelled because
query-parameter values are always strings. -/
def buildStep (allowed : List String) (table : String)
    (acc : List String × List String) (kv : String × String) :
    Except BuildError (List String × List String) :=
  if kv.1 ∈ skipKeys ∨ kv.2 = "" then .ok acc
  else if (splitKey kv.1).2 ∉ allowed then
    .error (.unknownColumn (splitKey kv.1).2 table)
  else buildClause (splitKey kv.1).2 (splitKey kv.1).1 kv.2 acc

/-- The `for key, val in params.items()` loop of `build_where_clause`:
runs `buildStep` over the parameters in order, propagating the first
raised error, as the Python exception does. -/
def buildFold (allowed : List String) (table : String)
    (acc : List String × List String) :
    List (String × String) → Except BuildError (List String × List String)
  | [] => .ok acc
  | kv :: rest =>
    match buildStep allowed table acc kv with
    | .error e => .error e
    | .ok acc2 => buildFold allowed table acc2 rest

/-- `build_where_clause(params, table)` from `src/supabase_api.py` lines
99-160: runs the loop over the parameters in order and joins the
collected conditions with `" AND "` under a leading `" WHERE "` (line
159), returning the clause text and the bound-value list.  `allowed` is
the column-name set `allowed_columns_set(table)`; `params` is the
insertion-ordered dictionary as a pair list. -/
def build_where_clause (params : List (String × String)) (allowed : List String)
    (table : String) : Except BuildError (String × List String) :=
  match buildFold allowed table ([], []) params with
  | .error e => .error e
  | .ok cv => .ok (if cv.1 = [] then "" else " WHERE " ++ pyJoin " AND " cv.1, cv.2)

/-! ### Builder variant: `apply_filters` (src/api/main.py, src/api/index.py,
src/api/supabase.py)

The supabase query builder is modelled as the list of chained filter
calls, in call order; `q.eq(col, v)` appends one element. -/

/-- One chained supabase query-builder filter call. -/
inductive FilterOp where
  | eq (col v : String)
  | neq (col v : String)
  | gt (col v : String)
  | gte (col v : String)
  | lt (col v : String)
  | lte (col v : String)
  | like (col v : String)
  | ilike (col v : String)
  | inL (col : String) (vs : List String)
deriving DecidableEq, Repr

/-- The operator dispatch of the `apply_filters` loop body
(src/api/main.py lines 55-63), reached after the column check passed:
the if/elif chain on `op` over the first value `v`; an unrecognized
operator falls through with no effect. -/
def applyClause (col op v : String) (q : List FilterOp) : List FilterOp :=
  if op = "eq" then q ++ [.eq col v]
  else if op = "ne" then q ++ [.neq col v]
  else if op = "gt" then q ++ [.gt col v]
  else if op = "gte" then q ++ [.gte col v]
  else if op = "lt" then q ++ [.lt col v]
  else if op = "lte" then q ++ [.lte col v]
  else if op = "like" then q ++ [.like col v]
  else if op = "ilike" then q ++ [.ilike col v]
  else if op = "in" then q ++ [.inL col (pySplitComma v)]
  else q

/-- One iteration of the `for key, value in params.items()` loop of
`apply_filters` (src/api/main.py lines 45-63): reserved keys are
skipped, unknown columns are skipped (`continue`, line 53), otherwise
`v = value[0]` and the matching builder call is chained.  `value` lists
produced by `parse_qs` are never empty, so `headD ""` only models
`value[0]`. -/
def applyStep (schema : List String) (q : List FilterOp) (kv : String × List String) :
    List FilterOp :=
  if kv.1 ∈ skipKeys then q
  else if (splitKey kv.1).2 ∉ schema then q
  else applyClause (splitKey kv.1).2 (splitKey kv.1).1 (kv.2.headD "") q

/-- `apply_filters(query, params, table)` from `src/api/main.py` lines
43-64 (identical in `src/api/supabase.py` and, up to a per-clause
exception guard that no pure builder call triggers, `src/api/index.py`),
with the schema already looked up: folds the loop body over the parsed
query parameters in order. -/
def apply_filters (q : List FilterOp) (params : List (String × List String))
    (schema : List String) : List FilterOp :=
  params.foldl (applyStep schema) q

/-- One `parse_qs` accumulation step: append the value to the key's
list if the key was seen, else append a fresh single-valued entry. -/
def pqStep (acc : List (String × List String)) (kv : String × String) :
    List (String × List String) :=
  if acc.any (fun e => e.1 = kv.1) then
    acc.map (fun e => if e.1 = kv.1 then (e.1, e.2 ++ [kv.2]) else e)
  else acc ++ [(kv.1, [kv.2])]

/-- Model of `urllib.parse.parse_qs` on an already-decoded list of
`(key, value)` occurrences: values are grouped per key in occurrence
order, keys ordered by first occurrence.  (Blank values are dropped by
`parse_qs` before this point and are not modelled.) -/
def parse_qs (pairs : List (String × String)) : List (String × List String) :=
  pairs.foldl pqStep []

/-- One CPython dict-insertion step: overwrite the key's value if the
key was seen, else append a fresh entry. -/
def pdStep (acc : List (String × String)) (kv : String × String) :
    List (String × String) :=
  if acc.any (fun e => e.1 = kv.1) then
    acc.map (fun e => if e.1 = kv.1 then (kv.1, kv.2) else e)
  else acc ++ [kv]

/-- Model of `dict(request.query_params)` (src/supabase_api.py line
234): starlette's `QueryParams` multidict backs `__getitem__` with a
dict comprehension over all `(key, value)` occurrences, so converting it
to a `dict` keeps, for each key, the LAST value, with keys ordered by
first occurrence (CPython dict insertion order). -/
def pyDict (pairs : List (String × String)) : List (String × String) :=
  pairs.foldl pdStep []

/-! ### Schema caches and worlds

The backing store is modelled as an oracle inside an explicit world
state; `none` from an oracle models the corresponding Python call
raising an exception.  Each schema probe and each query execution
increments a call counter, which is what the temporal claims are stated
against. -/

/-- A result row, as a field-name/value record. -/
abbrev Row := List (String × String)

/-- One column descriptor of the raw variant's
`information_schema.columns` probe (src/supabase_api.py lines 78-85). -/
structure ColumnDesc where
  name : String
  dataType : String
  nullable : Bool
deriving DecidableEq, Repr

/-- World state of the raw-SQL variant: the probe oracle, the module
global `SCHEMA_CACHE`, and a probe-call counter. -/
structure WorldS where
  probe : String → Option (List ColumnDesc)
  cache : List (String × List ColumnDesc)
  probeCalls : Nat

/-- `fetch_schema(table)` from `src/supabase_api.py` lines 66-88: issues
one catalog probe; any exception is caught and degrades to `[]`. -/
def fetch_schema (w : WorldS) (table : String) : List ColumnDesc × WorldS :=
  let w1 : WorldS := { w with probeCalls := w.probeCalls + 1 }
  match w.probe table with
  | some cols => (cols, w1)
  | none => ([], w1)

/-- `get_schema(table)` from `src/supabase_api.py` lines 90-93: on cache
miss, probe once via `fetch_schema` and store the result — empty or not
— in `SCHEMA_CACHE`. -/
def get_schema_raw (w : WorldS) (table : String) : List ColumnDesc × WorldS :=
  match lookupL w.cache table with
  | some s => (s, w)
  | none =>
    let r := fetch_schema w table
    (r.1, { r.2 with cache := r.2.cache ++ [(table, r.1)] })

/-- `allowed_columns_set(table)` from `src/supabase_api.py` lines 95-96:
the set of column names of the cached schema. -/
def allowed_columns_raw (w : WorldS) (table : String) : List String × WorldS :=
  let r := get_schema_raw w table
  (r.1.map ColumnDesc.name, r.2)

/-- The fully built supabase request a builder-variant handler executes:
table, select list, count mode, chained filters, optional ordering, and
the closed row range `range(lo, hi)`. -/
structure SupaRequest where
  table : String
  select : String
  countOpt : Option String
  filters : List FilterOp
  order : Option (String × Bool)
  lo : Int
  hi : Int
deriving DecidableEq, Repr

/-- World state of the builder variants: the configured `INTERNAL_API_KEY`,
the single-row schema probe oracle (`none` models `execute()` raising),
the query-run oracle, the module global `SCHEMA_CACHE`, and backend call
counters. -/
structure WorldM where
  key : String
  probe : String → Option (List Row)
  run : SupaRequest → Option (List Row × Option Nat)
  cache : List (String × List String)
  probeCalls : Nat
  execCalls : Nat

/-- `get_schema(table)` from `src/api/main.py` lines 31-41 (identical in
`src/api/index.py` lines 42-52): on cache miss, select one row and read
its field names; an empty table caches `[]`; but a probe EXCEPTION
returns `[]` WITHOUT caching it, so the next call probes again. -/
def get_schema_main (w : WorldM) (table : String) : List String × WorldM :=
  match lookupL w.cache table with
  | some s => (s, w)
  | none =>
    let w1 : WorldM := { w with probeCalls := w.probeCalls + 1 }
    match w.probe table with
    | none => ([], w1)
    | some rows =>
      let schema := (rows.headD []).map Prod.fst
      (schema, { w1 with cache := w1.cache ++ [(table, schema)] })

/-- `get_schema(table)` from `src/api/supabase.py` lines 24-33: the same
probe with NO exception handler — a failing probe propagates the
exception (`Except.error`) to the caller. -/
def get_schema_supa (w : WorldM) (table : String) :
    Except Unit (List String × WorldM) :=
  match lookupL w.cache table with
  | some s => .ok (s, w)
  | none =>
    let w1 : WorldM := { w with probeCalls := w.probeCalls + 1 }
    match w.probe table with
    | none => .error ()
    | some rows =>
      let schema := (rows.headD []).map Prod.fst
      .ok (schema, { w1 with cache := w1.cache ++ [(table, schema)] })

/-! ### Limit handling -/

/-- Limit extraction of `src/api/index.py` line 102:
`min(int(qs.get("limit", ["100"])[0]), 1000)`.  `none` models the
`int()` call raising on a non-numeric value. -/
def limitIndex (q : Option String) : Option Int :=
  (pyInt (q.getD "100")).map (fun n => min n 1000)

/-- Limit extraction of `src/api/main.py` line 96:
`int(qs.get("limit", ["100"])[0])`, with no bounds applied at all. -/
def limitMain (q : Option String) : Option Int :=
  pyInt (q.getD "100")

/-- Limit validation of `src/supabase_api.py` line 215, modelled from
FastAPI semantics of `limit: int = Query(100, ge=1, le=1000)`: an absent
parameter defaults to 100; a supplied integer outside `[1, 1000]` is
REJECTED with a 422 validation error (`Except.error`), not clamped. -/
def limitRaw (q : Option Int) : Except Unit Int :=
  match q with
  | none => .ok 100
  | some n => if 1 ≤ n ∧ n ≤ 1000 then .ok n else .error ()

/-! ### The builder-variant HTTP handler (src/api/main.py `proxy`) -/

/-- The table allow-list of the builder variants (`src/api/main.py`
lines 21-27). -/
def TABLES_api : List String :=
  ["account", "account_route", "customer", "destination", "domestic",
   "domestic_packing", "feedback", "order_links", "order_process_log",
   "orders", "packing", "payment", "payment_orders", "product_type",
   "purchases", "route", "shipment_tracking", "staff", "warehouse",
   "warehouse_location", "websites"]

/-- Responses the `proxy` handler can produce. -/
inductive ProxyResponse where
  /-- `HTTPException(401, "Unauthorized")`. -/
  | unauthorized
  /-- `HTTPException(404, "Invalid table")`. -/
  | notFound
  /-- An uncaught exception (bad `int()`, failing `execute()`), surfaced
  as HTTP 500. -/
  | serverError
  /-- The success envelope `{table, data, count, limit, offset}`. -/
  | ok (table : String) (data : List Row) (cnt : Option Nat) (limit offset : Int)
deriving Repr

/-- First value for key `k` in parsed query parameters, with default:
Python `qs.get(k, [d])[0]`. -/
def qsGet (qs : List (String × List String)) (k d : String) : String :=
  match lookupL qs k with
  | some vs => vs.headD ""
  | none => d

/-- The `proxy` endpoint of `src/api/main.py` lines 80-116: API-key
check, allow-list check, query-string parsing, schema lookup + filter
application, ordering, `range(offset, offset + limit - 1)`, and
execution.  The header is `none` when the request carries no `X-API-Key`
(Python `headers.get` returns `None`, which never equals the configured
key). -/
def proxyMain (w : WorldM) (table : String) (header : Option String)
    (rawQuery : List (String × String)) : ProxyResponse × WorldM :=
  if header ≠ some w.key then (.unauthorized, w)
  else if table ∉ TABLES_api then (.notFound, w)
  else
    let qs := parse_qs rawQuery
    let select := qsGet qs "select" "*"
    let order := (lookupL qs "order").map (fun vs => vs.headD "")
    let descB := pyLower (qsGet qs "desc" "true") = "true"
    match limitMain (lookupL qs "limit" |>.map (fun vs => vs.headD "")),
        pyInt (qsGet qs "offset" "0") with
    | some limit, some offset =>
      let countO := (lookupL qs "count").map (fun vs => vs.headD "")
      let sw := get_schema_main w table
      let filters := apply_filters [] qs sw.1
      let req : SupaRequest :=
        { table := table, select := select, countOpt := countO,
          filters := filters,
          order := order.bind (fun o => if o = "" then none else some (o, descB)),
          lo := offset, hi := offset + limit - 1 }
      let w2 : WorldM := { sw.2 with execCalls := sw.2.execCalls + 1 }
      match w2.run req with
      | some res => (.ok table res.1 res.2 limit offset, w2)
      | none => (.serverError, w2)
    | _, _ => (.serverError, w)

/-- `check_api_key(request)` from `src/supabase_api.py` lines 55-58:
`hmac.compare_digest(request.headers.get("X-API-Key", ""), API_KEY)`;
`compare_digest` on strings decides exactly string equality (in constant
time), so the model returns whether the check passes. -/
def check_api_key (header : Option String) (key : String) : Bool :=
  header.getD "" == key

/-! ### Concrete test fixtures -/

/-- A builder-variant world whose backend always raises: every probe and
every query execution fails. -/
def sampleWorld : WorldM :=
  { key := "secret", probe := fun _ => none, run := fun _ => none,
    cache := [], probeCalls := 0, execCalls := 0 }

/-- A raw-variant world whose catalog probe always raises. -/
def sampleWorldS : WorldS :=
  { probe := fun _ => none, cache := [], probeCalls := 0 }

/-! ### Placeholder counting

`countPS l` counts the positions at which the psycopg2 placeholder `%s`
occurs in a character list (occurrences of `%s` cannot overlap, so this
is also the substring-occurrence count). -/

/-- Number of `%s` placeholder occurrences in a character list. -/
def countPS : List Char → Nat
  | [] => 0
  | c :: rest => (if c = '%' ∧ rest.head? = some 's' then 1 else 0) + countPS rest

/-- Total number of placeholders across a condition list. -/
def sumPS (conds : List String) : Nat :=
  (conds.map (fun c => countPS c.data)).sum

lemma countPS_cons (c : Char) (rest : List Char) :
    countPS (c :: rest) =
      (if c = '%' ∧ rest.head? = some 's' then 1 else 0) + countPS rest := rfl

lemma countPS_append_of_not_mem (a b : List Char) (h : '%' ∉ a) :
    countPS (a ++ b) = countPS b := by
  induction a with
  | nil => rfl
  | cons c t ih =>
    simp only [List.mem_cons, not_or] at h
    rw [List.cons_append, countPS_cons, if_neg (fun hx => h.1 hx.1.symm), ih h.2]
    omega

lemma countPS_of_not_mem (l : List Char) (h : '%' ∉ l) : countPS l = 0 := by
  have := countPS_append_of_not_mem l [] h
  simpa using this

lemma countPS_append_head (a b : List Char) (h : b.head? ≠ some 's') :
    countPS (a ++ b) = countPS a + countPS b := by
  induction a with
  | nil => simp [countPS]
  | cons c t ih =>
    cases t with
    | nil =>
      have hc : ¬(c = '%' ∧ b.head? = some 's') := fun hx => h hx.2
      simp [countPS_cons, hc, countPS]
    | cons x t' =>
      show countPS (c :: ((x :: t') ++ b)) = countPS (c :: x :: t') + countPS b
      rw [countPS_cons, countPS_cons, ih]
      simp only [List.cons_append, List.head?_cons]
      omega

lemma sumPS_append (a b : List String) : sumPS (a ++ b) = sumPS a + sumPS b := by
  simp [sumPS]

lemma countPS_condBin (col sym : String) (hc : '%' ∉ col.data) (hs : '%' ∉ sym.data) :
    countPS (condBin col sym).data = 1 := by
  have hd : (condBin col sym).data
      = ['"'] ++ (col.data ++ (['"', ' '] ++ (sym.data ++ [' ', '%', 's']))) := by
    simp [condBin, String.data_append]
  rw [hd, countPS_append_of_not_mem _ _ (by decide),
    countPS_append_of_not_mem _ _ hc,
    countPS_append_of_not_mem _ _ (by decide),
    countPS_append_of_not_mem _ _ hs]
  decide

lemma countPS_join_ps : ∀ n : Nat, countPS (pyJoin ", " (List.replicate n "%s")).data = n
  | 0 => rfl
  | 1 => rfl
  | n + 2 => by
    have hrep : List.replicate (n + 2) "%s" = "%s" :: "%s" :: List.replicate n "%s" := rfl
    rw [hrep]
    show countPS ("%s" ++ ", " ++ pyJoin ", " ("%s" :: List.replicate n "%s")).data = n + 2
    have hd : ("%s" ++ ", " ++ pyJoin ", " ("%s" :: List.replicate n "%s")).data
        = ['%', 's'] ++ ([',', ' '] ++ (pyJoin ", " ("%s" :: List.replicate n "%s")).data) := by
      simp [String.data_append]
    rw [hd, countPS_append_head _ _ (by simp), countPS_append_of_not_mem _ _ (by decide)]
    have hn := countPS_join_ps (n + 1)
    rw [show List.replicate (n + 1) "%s" = "%s" :: List.replicate n "%s" from rfl] at hn
    rw [hn]
    simp [countPS]
    omega

lemma countPS_condIn (col : String) (n : Nat) (hc : '%' ∉ col.data) :
    countPS (condIn col n).data = n := by
  have hd : (condIn col n).data
      = ['"'] ++ (col.data ++ (['"', ' ', 'I', 'N', ' ', '('] ++
          ((pyJoin ", " (List.replicate n "%s")).data ++ [')']))) := by
    simp [condIn, String.data_append]
  rw [hd, countPS_append_of_not_mem _ _ (by decide),
    countPS_append_of_not_mem _ _ hc,
    countPS_append_of_not_mem _ _ (by decide),
    countPS_append_head _ _ (by simp),
    countPS_join_ps]
  simp [countPS]

lemma countPS_condIs (col word : String) (hc : '%' ∉ col.data) (hw : '%' ∉ word.data) :
    countPS (condIs col word).data = 0 := by
  have hd : (condIs col word).data
      = ['"'] ++ (col.data ++ (['"', ' ', 'I', 'S', ' '] ++ word.data)) := by
    simp [condIs, String.data_append]
  rw [hd, countPS_append_of_not_mem _ _ (by decide),
    countPS_append_of_not_mem _ _ hc,
    countPS_append_of_not_mem _ _ (by decide),
    countPS_of_not_mem _ hw]

lemma countPS_join_and (conds : List String) :
    countPS (pyJoin " AND " conds).data = sumPS conds := by
  induction conds with
  | nil => rfl
  | cons x xs ih =>
    cases xs with
    | nil => simp [pyJoin, sumPS]
    | cons y t =>
      show countPS (x ++ " AND " ++ pyJoin " AND " (y :: t)).data
        = sumPS (x :: y :: t)
      have hd : (x ++ " AND " ++ pyJoin " AND " (y :: t)).data
          = x.data ++ ([' ', 'A', 'N', 'D', ' '] ++ (pyJoin " AND " (y :: t)).data) := by
        simp [String.data_append]
      rw [hd, countPS_append_head _ _ (by simp),
        countPS_append_of_not_mem _ _ (by decide), ih]
      simp [sumPS]

/-! ### Structural lemmas about `buildStep` and `buildFold` -/

lemma sumPS_snoc (l : List String) (c : String) :
    sumPS (l ++ [c]) = sumPS l + countPS c.data := by
  simp [sumPS]

lemma buildStep_skip (allowed : List String) (table : String)
    (acc : List String × List String) (kv : String × String)
    (h : kv.1 ∈ skipKeys ∨ kv.2 = "") :
    buildStep allowed table acc kv = .ok acc := by
  simp only [buildStep, if_pos h]

lemma buildStep_unknown (allowed : List String) (table : String)
    (acc : List String × List String) (kv : String × String)
    (h1 : kv.1 ∉ skipKeys) (h2 : kv.2 ≠ "") (h3 : (splitKey kv.1).2 ∉ allowed) :
    buildStep allowed table acc kv =
      .error (.unknownColumn (splitKey kv.1).2 table) := by
  have hg : ¬(kv.1 ∈ skipKeys ∨ kv.2 = "") := by tauto
  simp only [buildStep, if_neg hg, if_pos h3]

lemma buildStep_ok_col (allowed : List String) (table : String)
    (acc r : List String × List String) (kv : String × String)
    (h : buildStep allowed table acc kv = .ok r) :
    kv.1 ∈ skipKeys ∨ kv.2 = "" ∨ (splitKey kv.1).2 ∈ allowed := by
  by_cases h1 : kv.1 ∈ skipKeys ∨ kv.2 = ""
  · tauto
  · by_cases h2 : (splitKey kv.1).2 ∈ allowed
    · tauto
    · rw [buildStep_unknown allowed table acc kv (by tauto) (by tauto) h2] at h
      simp at h

lemma buildStep_dispatch (allowed : List String) (table : String)
    (acc : List String × List String) (kv : String × String)
    (h1 : kv.1 ∉ skipKeys) (h2 : kv.2 ≠ "") (h3 : (splitKey kv.1).2 ∈ allowed) :
    buildStep allowed table acc kv =
      buildClause (splitKey kv.1).2 (splitKey kv.1).1 kv.2 acc := by
  have hg : ¬(kv.1 ∈ skipKeys ∨ kv.2 = "") := by tauto
  rw [buildStep, if_neg hg, if_neg (not_not_intro h3)]

lemma inClause_sumPS (col val : String) (acc r : List String × List String)
    (hcol : '%' ∉ col.data) (hacc : sumPS acc.1 = acc.2.length)
    (h : inClause col val acc = .ok r) : sumPS r.1 = r.2.length := by
  unfold inClause at h
  split at h
  · injection h with h2; subst h2; exact hacc
  · injection h with h2
    subst h2
    show sumPS (acc.1 ++ [condIn col (inItems val).length])
      = (acc.2 ++ inItems val).length
    rw [sumPS_snoc, countPS_condIn _ _ hcol, List.length_append]
    omega

lemma isClause_sumPS (col val : String) (acc r : List String × List String)
    (hcol : '%' ∉ col.data) (hacc : sumPS acc.1 = acc.2.length)
    (h : isClause col val acc = .ok r) : sumPS r.1 = r.2.length := by
  unfold isClause at h
  split at h
  · injection h with h2
    subst h2
    show sumPS (acc.1 ++ [condIs col "NULL"]) = acc.2.length
    rw [sumPS_snoc, countPS_condIs _ _ hcol (by decide)]
    omega
  · split at h
    · injection h with h2
      subst h2
      show sumPS (acc.1 ++ [condIs col "TRUE"]) = acc.2.length
      rw [sumPS_snoc, countPS_condIs _ _ hcol (by decide)]
      omega
    · split at h
      · injection h with h2
        subst h2
        show sumPS (acc.1 ++ [condIs col "FALSE"]) = acc.2.length
        rw [sumPS_snoc, countPS_condIs _ _ hcol (by decide)]
        omega
      · simp at h

lemma buildClause_sumPS (col op val : String) (acc r : List String × List String)
    (hcol : '%' ∉ col.data) (hacc : sumPS acc.1 = acc.2.length)
    (h : buildClause col op val acc = .ok r) : sumPS r.1 = r.2.length := by
  unfold buildClause at h
  repeat' split at h
  all_goals first
    | exact inClause_sumPS _ _ _ _ hcol hacc h
    | exact isClause_sumPS _ _ _ _ hcol hacc h
    | (injection h with h2
       subst h2
       exact hacc)
    | (injection h with h2
       subst h2
       simp only [sumPS_snoc, List.length_append, List.length_cons, List.length_nil]
       rw [countPS_condBin _ _ hcol (by decide)]
       omega)

lemma buildStep_sumPS (allowed : List String) (table : String)
    (acc r : List String × List String) (kv : String × String)
    (hcol : '%' ∉ ((splitKey kv.1).2).data)
    (hacc : sumPS acc.1 = acc.2.length)
    (h : buildStep allowed table acc kv = .ok r) :
    sumPS r.1 = r.2.length := by
  unfold buildStep at h
  split at h
  · injection h with h2; subst h2; exact hacc
  · split at h
    · simp at h
    · exact buildClause_sumPS _ _ _ _ _ hcol hacc h

lemma buildFold_ok_col (allowed : List String) (table : String) :
    ∀ (params : List (String × String)) (acc r : List String × List String),
      buildFold allowed table acc params = .ok r →
      ∀ p ∈ params, p.1 ∉ skipKeys → p.2 ≠ "" → (splitKey p.1).2 ∈ allowed := by
  intro params
  induction params with
  | nil => intro acc r _ p hp; simp at hp
  | cons kv rest ih =>
    intro acc r h p hp hp1 hp2
    cases hstep : buildStep allowed table acc kv with
    | error e => rw [buildFold, hstep] at h; simp at h
    | ok acc2 =>
      rw [buildFold, hstep] at h
      rcases List.mem_cons.mp hp with hp | hp
      · subst hp
        rcases buildStep_ok_col allowed table acc acc2 p hstep with hc | hc | hc
        · exact absurd hc hp1
        · exact absurd hc hp2
        · exact hc
      · exact ih acc2 r h p hp hp1 hp2

lemma buildFold_sumPS (allowed : List String) (table : String) :
    ∀ (params : List (String × String)) (acc r : List String × List String),
      (∀ p ∈ params, '%' ∉ ((splitKey p.1).2).data) →
      sumPS acc.1 = acc.2.length →
      buildFold allowed table acc params = .ok r →
      sumPS r.1 = r.2.length := by
  intro params
  induction params with
  | nil => intro acc r _ hacc h; injection h with h2; subst h2; exact hacc
  | cons kv rest ih =>
    intro acc r hcols hacc h
    cases hstep : buildStep allowed table acc kv with
    | error e => rw [buildFold, hstep] at h; simp at h
    | ok acc2 =>
      rw [buildFold, hstep] at h
      exact ih acc2 r (fun p hp => hcols p (List.mem_cons_of_mem kv hp))
        (buildStep_sumPS allowed table acc acc2 kv
          (hcols kv (List.mem_cons_self kv rest)) hacc hstep) h

lemma buildFold_append (allowed : List String) (table : String) :
    ∀ (l1 l2 : List (String × String)) (acc : List String × List String),
      buildFold allowed table acc (l1 ++ l2) =
        match buildFold allowed table acc l1 with
        | .error e => .error e
        | .ok a => buildFold allowed table a l2 := by
  intro l1
  induction l1 with
  | nil => intro l2 acc; rfl
  | cons kv rest ih =>
    intro l2 acc
    cases hstep : buildStep allowed table acc kv with
    | error e => simp only [List.cons_append, buildFold, hstep]
    | ok acc2 =>
      simp only [List.cons_append, buildFold, hstep]
      exact ih l2 acc2

/-! ### Lemmas about `apply_filters`, `parse_qs` and the caches -/

lemma applyStep_empty_schema (q : List FilterOp) (kv : String × List String) :
    applyStep [] q kv = q := by
  unfold applyStep
  by_cases h0 : kv.1 ∈ skipKeys
  · rw [if_pos h0]
  · rw [if_neg h0, if_pos (List.not_mem_nil _)]

lemma apply_filters_empty_schema (params : List (String × List String)) :
    ∀ q : List FilterOp, apply_filters q params [] = q := by
  induction params with
  | nil => intro q; rfl
  | cons kv rest ih =>
    intro q
    show apply_filters (applyStep [] q kv) rest [] = q
    rw [applyStep_empty_schema, ih]

lemma applyStep_unknown_col (schema : List String) (q : List FilterOp)
    (kv : String × List String) (h : (splitKey kv.1).2 ∉ schema) :
    applyStep schema q kv = q := by
  unfold applyStep
  by_cases h0 : kv.1 ∈ skipKeys
  · rw [if_pos h0]
  · rw [if_neg h0, if_pos h]

lemma applyStep_congr (schema : List String) (q : List FilterOp)
    (a b : String × List String) (h1 : a.1 = b.1)
    (h2 : a.2.headD "" = b.2.headD "") :
    applyStep schema q a = applyStep schema q b := by
  unfold applyStep
  rw [h1, h2]

lemma apply_filters_congr (schema : List String) :
    ∀ (l1 l2 : List (String × List String)),
      List.Forall₂ (fun a b => a.1 = b.1 ∧ a.2.headD "" = b.2.headD "") l1 l2 →
      ∀ q, apply_filters q l1 schema = apply_filters q l2 schema := by
  intro l1 l2 hrel
  induction hrel with
  | nil => intro q; rfl
  | cons hab _ ih =>
    intro q
    show apply_filters (applyStep schema q _) _ schema
      = apply_filters (applyStep schema q _) _ schema
    rw [applyStep_congr schema q _ _ hab.1 hab.2]
    exact ih _

lemma pqStep_any_mono (acc : List (String × List String)) (kv : String × String)
    (k : String) (h : acc.any (fun e => e.1 = k)) :
    (pqStep acc kv).any (fun e => e.1 = k) := by
  unfold pqStep
  split
  · rcases List.any_eq_true.mp h with ⟨e, he, hek⟩
    refine List.any_eq_true.mpr ⟨_, List.mem_map_of_mem _ he, ?_⟩
    split
    · simpa using hek
    · exact hek
  · exact List.any_eq_true.mpr (by
      rcases List.any_eq_true.mp h with ⟨e, he, hek⟩
      exact ⟨e, List.mem_append_left _ he, hek⟩)

lemma parse_qs_keys : ∀ (pairs : List (String × String))
    (acc : List (String × List String)) (k : String),
    (acc.any (fun e => e.1 = k) ∨ k ∈ pairs.map Prod.fst) →
    (pairs.foldl pqStep acc).any (fun e => e.1 = k) := by
  intro pairs
  induction pairs with
  | nil =>
    intro acc k h
    rcases h with h | h
    · exact h
    · simp at h
  | cons p ps ih =>
    intro acc k h
    show (ps.foldl pqStep (pqStep acc p)).any (fun e => e.1 = k)
    rcases h with h | h
    · exact ih _ k (Or.inl (pqStep_any_mono acc p k h))
    · rcases List.mem_map.mp h with ⟨e, he, hek⟩
      rcases List.mem_cons.mp he with rfl | he2
      · by_cases hacc : acc.any (fun x => x.1 = k)
        · exact ih _ k (Or.inl (pqStep_any_mono acc e k hacc))
        · refine ih _ k (Or.inl ?_)
          unfold pqStep
          rw [if_neg (by simpa [hek] using hacc)]
          refine List.any_eq_true.mpr ⟨(e.1, [e.2]), List.mem_append_right _ ?_, by simpa using hek⟩
          simp
      · exact ih _ k (Or.inr (List.mem_map.mpr ⟨e, he2, hek⟩))

lemma parse_qs_nonempty_inv : ∀ (pairs : List (String × String))
    (acc : List (String × List String)),
    (∀ e ∈ acc, e.2 ≠ []) → ∀ e ∈ pairs.foldl pqStep acc, e.2 ≠ [] := by
  intro pairs
  induction pairs with
  | nil => intro acc hacc; exact hacc
  | cons p ps ih =>
    intro acc hacc
    refine ih (pqStep acc p) ?_
    intro e he
    unfold pqStep at he
    split at he
    · rcases List.mem_map.mp he with ⟨x, hx, hxe⟩
      subst hxe
      split
      · simp
      · exact hacc x hx
    · rcases List.mem_append.mp he with hx | hx
      · exact hacc e hx
      · simp at hx
        subst hx
        simp

lemma parse_qs_nonempty (pairs : List (String × String)) :
    ∀ e ∈ parse_qs pairs, e.2 ≠ [] :=
  parse_qs_nonempty_inv pairs [] (by intro e he; simp at he)

lemma parse_qs_append_dup (raw : List (String × String)) (k v : String)
    (h : k ∈ raw.map Prod.fst) :
    parse_qs (raw ++ [(k, v)]) =
      (parse_qs raw).map (fun e => if e.1 = k then (e.1, e.2 ++ [v]) else e) := by
  have hstep : pqStep (parse_qs raw) (k, v)
      = (parse_qs raw).map (fun e => if e.1 = k then (e.1, e.2 ++ [v]) else e) := by
    show (if (parse_qs raw).any (fun e => e.1 = k) then
        (parse_qs raw).map (fun e => if e.1 = k then (e.1, e.2 ++ [v]) else e)
      else parse_qs raw ++ [(k, [v])]) = _
    have hk : ((parse_qs raw).any fun e => e.1 = k) = true :=
      parse_qs_keys raw [] k (Or.inr h)
    rw [if_pos hk]
  show (raw ++ [(k, v)]).foldl pqStep [] = _
  rw [List.foldl_append, List.foldl_cons, List.foldl_nil]
  exact hstep

lemma forall₂_head_dup (k v : String) :
    ∀ (l : List (String × List String)), (∀ e ∈ l, e.2 ≠ []) →
      List.Forall₂ (fun a b => a.1 = b.1 ∧ a.2.headD "" = b.2.headD "")
        (l.map (fun e => if e.1 = k then (e.1, e.2 ++ [v]) else e)) l := by
  intro l
  induction l with
  | nil => intro _; exact List.Forall₂.nil
  | cons e t ih =>
    intro hne
    refine List.Forall₂.cons ?_ (ih (fun x hx => hne x (List.mem_cons_of_mem e hx)))
    by_cases hek : e.1 = k
    · refine ⟨by simp [hek], ?_⟩
      rcases hx : e.2 with _ | ⟨c, cs⟩
      · exact absurd hx (hne e (List.mem_cons_self e t))
      · simp [hek, hx]
    · exact ⟨by simp [hek], by simp [hek]⟩

lemma lookupL_append_miss {α : Type} (c : List (String × α)) (t : String) (s : α)
    (h : lookupL c t = none) : lookupL (c ++ [(t, s)]) t = some s := by
  induction c with
  | nil => simp [lookupL]
  | cons e c2 ih =>
    by_cases he : e.1 = t
    · exfalso
      unfold lookupL at h
      rw [List.find?_cons_of_pos _ (by simpa using he)] at h
      simp at h
    · unfold lookupL at h ⊢
      rw [List.find?_cons_of_neg _ (by simpa using he)] at h
      rw [List.cons_append, List.find?_cons_of_neg _ (by simpa using he)]
      exact ih h

lemma buildFold_skip_mid (allowed : List String) (table : String)
    (pre post : List (String × String)) (k : String)
    (acc : List String × List String) :
    buildFold allowed table acc (pre ++ (k, "") :: post)
      = buildFold allowed table acc (pre ++ post) := by
  rw [buildFold_append, buildFold_append]
  cases buildFold allowed table acc pre with
  | error e => rfl
  | ok a =>
    show buildFold allowed table a ((k, "") :: post) = buildFold allowed table a post
    rw [buildFold, buildStep_skip allowed table a (k, "") (Or.inr rfl)]

lemma build_where_clause_ok_col (params : List (String × String))
    (allowed : List String) (table : String) (r : String × List String)
    (h : build_where_clause params allowed table = .ok r) :
    ∀ p ∈ params, p.1 ∉ skipKeys → p.2 ≠ "" → (splitKey p.1).2 ∈ allowed := by
  unfold build_where_clause at h
  cases hf : buildFold allowed table ([], []) params with
  | error e => rw [hf] at h; simp at h
  | ok cv => exact buildFold_ok_col allowed table params ([], []) cv hf

/-! ## The claims -/

/-- Claim C1 (corrected).  The claim says every filter key whose column
is absent from a non-empty schema makes filter compilation fail with a
`ValidationError` naming that column, never silently dropping the
clause.  This holds of the raw-SQL compiler `build_where_clause`, but
the builder-variant compiler `apply_filters` (src/api/main.py line 53)
silently drops such a clause instead: here `bogus` is not a member of
the non-empty schema `["id"]`, yet compilation succeeds and adds no
filter. -/
theorem c1_counterexample :
    ("bogus" : String) ∉ (["id"] : List String) ∧ (["id"] : List String) ≠ [] ∧
    apply_filters [] [("bogus", ["x"])] ["id"] = [] :=
  ⟨by decide, by decide, rfl⟩

/-- Claim C1 (amended): in the raw-SQL compiler `build_where_clause`, a
successful compilation implies every non-reserved, non-empty-valued
parameter's column is a member of the schema (so an absent column makes
compilation fail), and a parameter whose column is absent fails with the
400 error naming exactly that column; the builder variant
`apply_filters` instead drops such clauses silently (see the
counterexample). -/
theorem c1_unknown_column_rejected :
    (∀ (params : List (String × String)) (allowed : List String) (table : String)
      (r : String × List String),
      build_where_clause params allowed table = .ok r →
      ∀ p ∈ params, p.1 ∉ skipKeys → p.2 ≠ "" → (splitKey p.1).2 ∈ allowed) ∧
    (∀ (k v : String) (allowed : List String) (table : String),
      k ∉ skipKeys → v ≠ "" → (splitKey k).2 ∉ allowed →
      build_where_clause [(k, v)] allowed table =
        .error (.unknownColumn (splitKey k).2 table)) := by
  constructor
  · exact build_where_clause_ok_col
  · intro k v allowed table h1 h2 h3
    unfold build_where_clause buildFold
    rw [buildStep_unknown allowed table ([], []) (k, v) h1 h2 h3]

/-- Claim C1 witness: a concrete unknown column is rejected with the
error naming it. -/
theorem c1_witness :
    build_where_clause [("bogus", "x")] ["id"] "orders" =
      .error (.unknownColumn "bogus" "orders") := by
  have h := c1_unknown_column_rejected.2 "bogus" "x" ["id"] "orders"
    (by decide) (by decide) (by decide)
  simpa using h

/-- Claim C2 (corrected).  The claim says the generated WHERE text is
independent of operand contents.  It is not: an `is` operand selects
among the IS NULL / IS TRUE / IS FALSE texts, so two requests differing
only in the `is` operand compile to different SQL texts (and an `in`
operand's comma count changes the number of placeholders). -/
theorem c2_counterexample :
    build_where_clause [("is__flag", "null")] ["flag"] "t"
      = .ok (" WHERE \"flag\" IS NULL", []) ∧
    build_where_clause [("is__flag", "true")] ["flag"] "t"
      = .ok (" WHERE \"flag\" IS TRUE", []) ∧
    (" WHERE \"flag\" IS NULL" : String) ≠ " WHERE \"flag\" IS TRUE" :=
  ⟨rfl, rfl, by decide⟩

/-- Claim C2 (amended): for every compiled plan of `build_where_clause`
whose column identifiers contain no `%` character (true of all
schema-validated identifiers), the number of `%s` placeholders in the
WHERE text equals the length of the bound-values list — no operand is
ever interpolated into the text; the text may still depend on operands
through the `is` classification and the `in` segment count. -/
theorem c2_placeholders_eq_values (params : List (String × String))
    (allowed : List String) (table : String) (text : String) (vals : List String)
    (hcols : ∀ p ∈ params, '%' ∉ ((splitKey p.1).2).data)
    (h : build_where_clause params allowed table = .ok (text, vals)) :
    countPS text.data = vals.length := by
  unfold build_where_clause at h
  cases hf : buildFold allowed table ([], []) params with
  | error e => rw [hf] at h; simp at h
  | ok cv =>
    rw [hf] at h
    injection h with h2
    have hsum : sumPS cv.1 = cv.2.length :=
      buildFold_sumPS allowed table params ([], []) cv hcols rfl hf
    have htext : text = if cv.1 = [] then "" else " WHERE " ++ pyJoin " AND " cv.1 := by
      have := congrArg Prod.fst h2
      simpa using this.symm
    have hvals : vals = cv.2 := by
      have := congrArg Prod.snd h2
      simpa using this.symm
    subst hvals
    rw [htext]
    by_cases hnil : cv.1 = []
    · rw [if_pos hnil]
      rw [hnil] at hsum
      have h0 : cv.2.length = 0 := by simpa [sumPS] using hsum.symm
      rw [h0]
      rfl
    · rw [if_neg hnil]
      have hd : (" WHERE " ++ pyJoin " AND " cv.1).data
          = [' ', 'W', 'H', 'E', 'R', 'E', ' '] ++ (pyJoin " AND " cv.1).data := by
        simp [String.data_append]
      rw [hd, countPS_append_of_not_mem _ _ (by decide), countPS_join_and, hsum]

/-- Claim C2 witness: a concrete plan with an `in` filter and a
comparison filter has three placeholders and three bound values. -/
theorem c2_witness :
    countPS (" WHERE \"status\" IN (%s, %s) AND \"id\" > %s").data
      = (["A", "B", "5"] : List String).length :=
  c2_placeholders_eq_values [("in__status", "A,B,"), ("gt__id", "5")]
    ["status", "id"] "orders" _ _ (by decide) rfl

/-- Claim C5 (corrected).  The claim says an empty cached schema
bypasses column validation and every recognized clause still contributes
its constraint.  In fact the raw-SQL compiler fails closed — with an
empty schema every filter parameter is rejected with the unknown-column
error — as this concrete run shows. -/
theorem c5_counterexample :
    build_where_clause [("id", "1")] [] "orders"
      = .error (.unknownColumn "id" "orders") := rfl

/-- Claim C5 (amended): when the cached schema is empty, the raw-SQL
compiler `build_where_clause` rejects every non-skipped filter parameter
(a compilation can only succeed if every parameter is reserved or has an
empty value), while the builder variant `apply_filters` silently drops
every filter clause, leaving the query unchanged — in neither variant
does a clause contribute its constraint. -/
theorem c5_empty_schema_behavior :
    (∀ (params : List (String × String)) (table : String) (r : String × List String),
      build_where_clause params [] table = .ok r →
      ∀ p ∈ params, p.1 ∈ skipKeys ∨ p.2 = "") ∧
    (∀ (q : List FilterOp) (params : List (String × List String)),
      apply_filters q params [] = q) := by
  constructor
  · intro params table r h p hp
    by_cases h1 : p.1 ∈ skipKeys
    · exact Or.inl h1
    · by_cases h2 : p.2 = ""
      · exact Or.inr h2
      · exact absurd (build_where_clause_ok_col params [] table r h p hp h1 h2)
          (List.not_mem_nil _)
  · intro q params
    exact apply_filters_empty_schema params q

/-- Claim C5 witness: with an empty schema, a reserved-key-only
parameter set compiles (to the empty clause), and its parameter is
indeed reserved; and a concrete builder query passes through unchanged. -/
theorem c5_witness :
    (("select", "x") : String × String).1 ∈ skipKeys ∨
      (("select", "x") : String × String).2 = "" :=
  c5_empty_schema_behavior.1 [("select", "x")] "t" ("", []) rfl
    ("select", "x") (by simp)

/-- Claim C10 (confirmed).  A non-reserved parameter with an empty-string
value is skipped before column validation: it contributes no condition
and no bound value wherever it occurs, and it raises no error even when
its column is unknown — `?bogus=` succeeds where `?bogus=x` is
rejected. -/
theorem c10_empty_value_skipped :
    (∀ (pre post : List (String × String)) (allowed : List String)
      (table k : String),
      build_where_clause (pre ++ (k, "") :: post) allowed table
        = build_where_clause (pre ++ post) allowed table) ∧
    build_where_clause [("bogus", "")] ["id"] "tbl" = .ok ("", []) ∧
    build_where_clause [("bogus", "x")] ["id"] "tbl"
      = .error (.unknownColumn "bogus" "tbl") := by
  refine ⟨?_, rfl, rfl⟩
  intro pre post allowed table k
  unfold build_where_clause
  rw [buildFold_skip_mid]

/-- Claim C3 (confirmed).  A request whose `X-API-Key` header is missing
(`none`) or differs from the configured secret is answered with 401
Unauthorized before anything else happens: the world — including both
backend call counters — is returned untouched, for every table and every
query string.  Likewise the raw variant's `check_api_key` rejects every
such header. -/
theorem c3_auth_before_backend :
    (∀ (w : WorldM) (table : String) (header : Option String)
      (rq : List (String × String)),
      header ≠ some w.key → proxyMain w table header rq = (.unauthorized, w)) ∧
    (∀ (header : Option String) (key : String),
      header.getD "" ≠ key → check_api_key header key = false) := by
  constructor
  · intro w table header rq h
    unfold proxyMain
    rw [if_pos h]
  · intro header key h
    simpa [check_api_key] using h

/-- Claim C3 witness: a concrete keyless request against a live-looking
world is rejected with the world unchanged, so zero backend calls were
made. -/
theorem c3_witness :
    proxyMain sampleWorld "orders" none [("gt__id", "5")]
      = (.unauthorized, sampleWorld) ∧
    sampleWorld.probeCalls = 0 ∧ sampleWorld.execCalls = 0 ∧
    check_api_key none "secret" = false :=
  ⟨c3_auth_before_backend.1 sampleWorld "orders" none [("gt__id", "5")] (by simp),
    rfl, rfl, c3_auth_before_backend.2 none "secret" (by decide)⟩

/-- Claim C4 (corrected).  The claim says getSchema never raises and
caches every probe result, so at most one probe is ever issued per
table.  That is true of `src/supabase_api.py` but false of the builder
variants cited by the claim: in `src/api/main.py` a FAILED probe returns
an empty schema without caching it, so a second call probes the backend
again (two probes below), and in `src/api/supabase.py` the probe
exception propagates out of `get_schema`. -/
theorem c4_counterexample :
    (get_schema_main (get_schema_main sampleWorld "orders").2 "orders").2.probeCalls
      = 2 ∧
    get_schema_supa sampleWorld "orders" = .error () :=
  ⟨rfl, rfl⟩

/-- Claim C4 (amended): the raw variant's `get_schema`
(src/supabase_api.py) has exactly the claimed behaviour — it is total, a
cache hit does not touch the world, a failed probe degrades to an empty
schema which is itself cached, the result of any call is in the cache
afterwards, and a repeated call is a pure cache hit (so at most one
probe is ever issued per table); the builder variants deviate as the
counterexample shows. -/
theorem c4_schema_cache (w : WorldS) (t : String) :
    (∀ s, lookupL w.cache t = some s → get_schema_raw w t = (s, w)) ∧
    (lookupL w.cache t = none → w.probe t = none →
      get_schema_raw w t
        = ([], WorldS.mk w.probe (w.cache ++ [(t, [])]) (w.probeCalls + 1))) ∧
    lookupL (get_schema_raw w t).2.cache t = some (get_schema_raw w t).1 ∧
    get_schema_raw (get_schema_raw w t).2 t
      = ((get_schema_raw w t).1, (get_schema_raw w t).2) := by
  have hhit : ∀ s, lookupL w.cache t = some s → get_schema_raw w t = (s, w) := by
    intro s hs
    unfold get_schema_raw
    rw [hs]
  have hmiss : lookupL w.cache t = none → w.probe t = none →
      get_schema_raw w t
        = ([], WorldS.mk w.probe (w.cache ++ [(t, [])]) (w.probeCalls + 1)) := by
    intro hc hp
    unfold get_schema_raw fetch_schema
    rw [hc, hp]
  have hcached : lookupL (get_schema_raw w t).2.cache t
      = some (get_schema_raw w t).1 := by
    cases hc : lookupL w.cache t with
    | some s => rw [hhit s hc]; exact hc
    | none =>
      unfold get_schema_raw fetch_schema
      rw [hc]
      cases hp : w.probe t with
      | some cols => exact lookupL_append_miss w.cache t cols hc
      | none => exact lookupL_append_miss w.cache t [] hc
  refine ⟨hhit, hmiss, hcached, ?_⟩
  have := hhit
  cases hr : get_schema_raw w t with
  | mk s w2 =>
    have hc2 : lookupL w2.cache t = some s := by
      have := hcached
      rw [hr] at this
      exact this
    show get_schema_raw w2 t = (s, w2)
    unfold get_schema_raw
    rw [hc2]

/-- Claim C4 witness: on a fresh raw-variant world whose probe raises,
`get_schema` returns the empty schema, caches it, and counts exactly one
probe. -/
theorem c4_witness :
    get_schema_raw sampleWorldS "orders"
      = ([], WorldS.mk sampleWorldS.probe [("orders", [])] 1) := by
  have h := (c4_schema_cache sampleWorldS "orders").2.1 rfl rfl
  simpa [sampleWorldS] using h

/-- Claim C6 (corrected).  The claim says the limit is clamped into
`[1, 1000]` in both cited places.  Neither does both halves:
`src/api/index.py` caps above at 1000 but lets `limit=0` (and negatives)
through unchanged, so the executed range can span fewer than one row;
`src/supabase_api.py` REJECTS out-of-range values with a 422 validation
error instead of clamping them to the maximum. -/
theorem c6_counterexample :
    limitIndex (some "0") = some 0 ∧ ¬(1 ≤ (0 : Int)) ∧
    limitRaw (some 1001) = .error () :=
  ⟨rfl, by decide, rfl⟩

/-- Claim C6 (amended): `src/api/index.py` parses the limit as an
integer with default 100 and caps it above at 1000, applying no lower
bound; `src/supabase_api.py` defaults to 100 and accepts a supplied
limit exactly when it lies in `[1, 1000]`, rejecting anything else
rather than clamping. -/
theorem c6_limit_semantics :
    (∀ (s : String) (n : Int), pyInt s = some n →
      limitIndex (some s) = some (min n 1000)) ∧
    limitIndex none = some 100 ∧
    (∀ q m, limitIndex q = some m → m ≤ 1000) ∧
    (∀ n : Int, limitRaw (some n)
      = if 1 ≤ n ∧ n ≤ 1000 then .ok n else .error ()) ∧
    (∀ n m, limitRaw (some n) = .ok m → 1 ≤ m ∧ m ≤ 1000) ∧
    limitRaw none = .ok 100 := by
  refine ⟨?_, rfl, ?_, fun n => rfl, ?_, rfl⟩
  · intro s n h
    unfold limitIndex
    show (pyInt s).map (fun n => min n 1000) = some (min n 1000)
    rw [h]
    rfl
  · intro q m h
    unfold limitIndex at h
    cases hp : pyInt (q.getD "100") with
    | none => rw [hp] at h; simp at h
    | some n =>
      rw [hp] at h
      have hm : min n 1000 = m := by simpa using h
      omega
  · intro n m h
    have h2 : (if 1 ≤ n ∧ n ≤ 1000 then (Except.ok n : Except Unit Int)
        else .error ()) = .ok m := h
    split at h2
    · have hm : n = m := by simpa using h2
      omega
    · simp at h2

/-- Claim C6 witness: a concrete over-limit request is capped to 1000 by
the index.py handler. -/
theorem c6_witness : limitIndex (some "2500") = some (min 2500 1000) :=
  c6_limit_semantics.1 "2500" 2500 (by decide)

/-- Claim C7 (corrected).  The claim says every `in` operand is split on
commas with every empty segment dropped.  That is true of the raw-SQL
compiler, but the builder variant cited by the claim
(src/api/main.py line 63) splits with `v.split(",")` and KEEPS empty
segments: `in__status=A,B,` becomes a clause over `["A", "B", ""]`, not
over exactly `{A, B}`. -/
theorem c7_counterexample :
    apply_filters [] [("in__status", ["A,B,"])] ["status"]
      = [FilterOp.inL "status" ["A", "B", ""]] ∧
    (["A", "B", ""] : List String) ≠ ["A", "B"] :=
  ⟨rfl, by decide⟩

/-- Claim C7 (amended): in the raw-SQL compiler `build_where_clause`,
the `in` operand is split on commas with segments stripped and empty
segments dropped (no item is ever the empty string), an empty item list
drops the clause entirely (the accumulator is returned unchanged), an
`in` filter key on a valid column dispatches to exactly this behaviour,
and `in__status=A,B,` in particular yields exactly the items
`["A", "B"]`; the builder variant `apply_filters` keeps empty segments
(see the counterexample). -/
theorem c7_in_semantics :
    (∀ (val x : String), x ∈ inItems val → x ≠ "") ∧
    (∀ (col val : String) (acc : List String × List String),
      inItems val = [] → inClause col val acc = .ok acc) ∧
    inItems "A,B," = ["A", "B"] ∧
    (∀ (allowed : List String) (table : String)
      (acc : List String × List String) (k v col : String),
      k ∉ skipKeys → v ≠ "" → splitKey k = ("in", col) → col ∈ allowed →
      buildStep allowed table acc (k, v) = inClause col v acc) := by
  refine ⟨?_, ?_, rfl, ?_⟩
  · intro val x hx
    simpa using (List.mem_filter.mp hx).2
  · intro col val acc h
    unfold inClause
    rw [if_pos h]
  · intro allowed table acc k v col h1 h2 hsplit h3
    have hcol : (splitKey k).2 ∈ allowed := by rw [hsplit]; exact h3
    rw [buildStep_dispatch allowed table acc (k, v) h1 h2 hcol, hsplit]
    rfl

/-- Claim C7 witness: the concrete parameter `in__status=A,B,` on the
schema `["status"]` compiles to an IN clause with two placeholders bound
to exactly `A` and `B` — the trailing empty segment is dropped. -/
theorem c7_witness :
    buildStep ["status"] "orders" ([], []) ("in__status", "A,B,")
      = .ok (["\"status\" IN (%s, %s)"], ["A", "B"]) := by
  rw [c7_in_semantics.2.2.2 ["status"] "orders" ([], []) "in__status" "A,B,"
    "status" (by decide) (by decide) (by decide) (by decide)]
  rfl

/-- Claim C8 (confirmed).  For an `is` filter on a valid column, the
operand is accepted exactly when it lowercases to `null`, `true` or
`false` (compiling to IS NULL / IS TRUE / IS FALSE, binding no value);
any other operand raises the 400 validation error. -/
theorem c8_is_semantics (allowed : List String) (table : String)
    (acc : List String × List String) (k v col : String)
    (h1 : k ∉ skipKeys) (h2 : v ≠ "") (hsplit : splitKey k = ("is", col))
    (h3 : col ∈ allowed) :
    ((∃ r, buildStep allowed table acc (k, v) = .ok r) ↔
      pyLower v ∈ ["null", "true", "false"]) ∧
    (pyLower v = "null" →
      buildStep allowed table acc (k, v) = .ok (acc.1 ++ [condIs col "NULL"], acc.2)) ∧
    (pyLower v = "true" →
      buildStep allowed table acc (k, v) = .ok (acc.1 ++ [condIs col "TRUE"], acc.2)) ∧
    (pyLower v = "false" →
      buildStep allowed table acc (k, v) = .ok (acc.1 ++ [condIs col "FALSE"], acc.2)) ∧
    (pyLower v ∉ ["null", "true", "false"] →
      buildStep allowed table acc (k, v) = .error .invalidIs) := by
  have hcol : (splitKey k).2 ∈ allowed := by rw [hsplit]; exact h3
  have hd : buildStep allowed table acc (k, v) = isClause col v acc := by
    rw [buildStep_dispatch allowed table acc (k, v) h1 h2 hcol, hsplit]
    rfl
  rw [hd]
  by_cases hn : pyLower v = "null"
  · refine ⟨?_, ?_, ?_, ?_, ?_⟩
    · simp [isClause, hn]
    · intro _; unfold isClause; rw [if_pos hn]
    · intro ht; rw [hn] at ht; simp at ht
    · intro ht; rw [hn] at ht; simp at ht
    · intro hmem; exact absurd (by simp [hn]) hmem
  · by_cases ht : pyLower v = "true"
    · refine ⟨?_, ?_, ?_, ?_, ?_⟩
      · simp [isClause, hn, ht]
      · intro hx; exact absurd hx hn
      · intro _; unfold isClause; rw [if_neg hn, if_pos ht]
      · intro hx; rw [ht] at hx; simp at hx
      · intro hmem; exact absurd (by simp [ht]) hmem
    · by_cases hf : pyLower v = "false"
      · refine ⟨?_, ?_, ?_, ?_, ?_⟩
        · simp [isClause, hn, ht, hf]
        · intro hx; exact absurd hx hn
        · intro hx; exact absurd hx ht
        · intro _; unfold isClause; rw [if_neg hn, if_neg ht, if_pos hf]
        · intro hmem; exact absurd (by simp [hf]) hmem
      · refine ⟨?_, ?_, ?_, ?_, ?_⟩
        · simp [isClause, hn, ht, hf]
        · intro hx; exact absurd hx hn
        · intro hx; exact absurd hx ht
        · intro hx; exact absurd hx hf
        · intro _; unfold isClause; rw [if_neg hn, if_neg ht, if_neg hf]

/-- Claim C8 witness: `is__flag=NULL` (any case) on a valid column
compiles to an IS NULL predicate with no bound value, and the operand
`banana` is rejected. -/
theorem c8_witness :
    buildStep ["flag"] "orders" ([], []) ("is__flag", "NULL")
      = .ok (["\"flag\" IS NULL"], []) ∧
    buildStep ["flag"] "orders" ([], []) ("is__flag", "banana")
      = .error .invalidIs :=
  ⟨(c8_is_semantics ["flag"] "orders" ([], []) "is__flag" "NULL" "flag"
      (by decide) (by decide) (by decide) (by decide)).2.1 (by decide),
    (c8_is_semantics ["flag"] "orders" ([], []) "is__flag" "banana" "flag"
      (by decide) (by decide) (by decide) (by decide)).2.2.2.2 (by decide)⟩

/-- Claim C9 (corrected).  The claim says only the FIRST value of a
duplicated key is honored by parameter extraction and compilation.  That
is true of the builder variants (which use `parse_qs` and `value[0]`),
but the raw-SQL variant cited by the claim feeds
`dict(request.query_params)` to `build_where_clause`, and that dict
keeps the LAST value of each key: with `?id=1&id=2` the clause binds
`2`. -/
theorem c9_counterexample :
    build_where_clause (pyDict [("id", "1"), ("id", "2")]) ["id"] "t"
      = .ok (" WHERE \"id\" = %s", ["2"]) ∧
    (["2"] : List String) ≠ ["1"] :=
  ⟨rfl, by decide⟩

/-- Claim C9 (amended): in the builder pipeline, appending a later
occurrence of an already-present key to the query string does not change
the compiled filters at all — only the first value of each key is
honored; the raw-SQL variant honors the last occurrence instead (see the
counterexample). -/
theorem c9_first_value_honored (raw : List (String × String)) (k v : String)
    (schema : List String) (q : List FilterOp)
    (h : k ∈ raw.map Prod.fst) :
    apply_filters q (parse_qs (raw ++ [(k, v)])) schema
      = apply_filters q (parse_qs raw) schema := by
  rw [parse_qs_append_dup raw k v h]
  exact apply_filters_congr schema _ _
    (forall₂_head_dup k v (parse_qs raw) (parse_qs_nonempty raw)) q

/-- Claim C9 witness: duplicating `gt__id` leaves the compiled builder
filters unchanged. -/
theorem c9_witness :
    apply_filters [] (parse_qs ([("gt__id", "1")] ++ [("gt__id", "9")])) ["id"]
      = apply_filters [] (parse_qs [("gt__id", "1")]) ["id"] :=
  c9_first_value_honored [("gt__id", "1")] "gt__id" "9" ["id"] [] (by decide)

end Tiximax

